import Mathlib

/-!
Verification of the TWAI console example (frame codec, filter list
handling, transmit rendezvous, capture pipeline) against its
natural-language specification.  The definitions below are a shallow
embedding of the C sources in `examples/peripherals/twai/twai_utils/main/`
(`twai_utils_parser.c`, `twai_utils_parser.h`, `cmd_twai_dump.c`, and the
send-command translation unit).
-/

set_option maxHeartbeats 2000000

namespace TwaiUtils

/-- Parser failure codes from `twai_utils_parser.h`
(`PARSE_ERROR = -1`, `PARSE_INVALID_ARG = -2`, `PARSE_OUT_OF_RANGE = -3`).
`PARSE_TOO_LONG = -4` is also declared in the header; it is listed here so
that statements about it can be written, although no parser routine in the
sources ever returns it. -/
inductive PErr where
  | error
  | invalidArg
  | outOfRange
  | tooLong
  deriving DecidableEq, Repr

/-- Constant `TWAI_MAX_DATA_LEN = 8` from `twai_utils_parser.h`. -/
def TWAI_MAX_DATA_LEN : Nat := 8

/-- Constant `TWAI_FD_MAX_DATA_LEN = 64` from `twai_utils_parser.h`. -/
def TWAI_FD_MAX_DATA_LEN : Nat := 64

/-- Constant `TWAI_STD_ID_CHAR_LEN = 3` from `twai_utils_parser.h`. -/
def TWAI_STD_ID_CHAR_LEN : Nat := 3

/-- Constant `TWAI_EXT_ID_CHAR_LEN = 8` from `twai_utils_parser.h`. -/
def TWAI_EXT_ID_CHAR_LEN : Nat := 8

/-- Constant `TWAI_STD_ID_MASK = 0x7FF` from the HAL headers (quoted in
`src/unnamed/part_003`). -/
def TWAI_STD_ID_MASK : Nat := 0x7FF

/-- Constant `TWAI_EXT_ID_MASK = 0x1FFFFFFF` from the HAL headers (quoted in
`src/unnamed/part_003`). -/
def TWAI_EXT_ID_MASK : Nat := 0x1FFFFFFF

/-- Constant `TWAI_RTR_DEFAULT_DLC = 8` from `twai_utils_parser.h` (used by
the dedicated classic-frame decoder). -/
def TWAI_RTR_DEFAULT_DLC : Nat := 8

/-- Constant `TWAI_FD_FLAGS_MAX_VALUE = 15` from `twai_utils_parser.h`. -/
def TWAI_FD_FLAGS_MAX_VALUE : Nat := 15

/-- Constant `MAX_INPUT_LEN = 256` from `twai_utils_parser.h`. -/
def MAX_INPUT_LEN : Nat := 256

/-- Constant `TWAI_FRAME_MAX_LEN = 8` (classic payload bound) from the HAL
headers, used by the inline parser in `src/unnamed/part_003`. -/
def TWAI_FRAME_MAX_LEN : Nat := 8

/-- Constant `TWAIFD_FRAME_MAX_LEN = 64` (FD payload bound) from the HAL
headers, used by the inline parser in `src/unnamed/part_003`. -/
def TWAIFD_FRAME_MAX_LEN : Nat := 64

/-- C `isxdigit`: the character is a hexadecimal digit. -/
def isxdigit (c : Char) : Bool :=
  decide ((c ≥ '0' ∧ c ≤ '9') ∨ (c ≥ 'A' ∧ c ≤ 'F') ∨ (c ≥ 'a' ∧ c ≤ 'f'))

/-- Function `parse_nibble` from `twai_utils_parser.c`: value of a single
hexadecimal digit, `none` standing for `PARSE_ERROR`. -/
def parse_nibble (c : Char) : Option Nat :=
  if c ≥ '0' ∧ c ≤ '9' then some (c.toNat - 48)
  else if c ≥ 'A' ∧ c ≤ 'F' then some (c.toNat - 65 + 10)
  else if c ≥ 'a' ∧ c ≤ 'f' then some (c.toNat - 97 + 10)
  else none

/-- Value of a hexadecimal digit character (0 for non-digits). -/
def hexVal (c : Char) : Nat := (parse_nibble c).getD 0

/-- C `isspace` on the default locale. -/
def isspaceC (c : Char) : Bool :=
  c == ' ' || c == '\t' || c == '\n' || c == '\x0b' || c == '\x0c' || c == '\r'

/-- Greedy run of hexadecimal digits with an accumulator: the digit loop of
`strtoul` in base 16.  Returns the accumulated value and the number of
characters consumed. -/
def hexRun : List Char → Nat → Nat × Nat
  | [], acc => (acc, 0)
  | c :: rest, acc =>
    if isxdigit c then
      let r := hexRun rest (acc * 16 + hexVal c)
      (r.1, r.2 + 1)
    else (acc, 0)

/-- `ULONG_MAX` on the 32-bit ESP targets. -/
def ULONG_MAX : Nat := 4294967295

/-- Model of `strtoul(str, &end, 16)` on a 32-bit target: skip leading
spaces, an optional sign, an optional `0x`/`0X` prefix when followed by a
digit, then a maximal run of hexadecimal digits, clamping to `ULONG_MAX`
and negating modulo 2^32 under a minus sign.  Returns the converted value
and the number of characters consumed (`end - str`); nothing is consumed
when no digit is found. -/
def strtoul16 (s : List Char) : Nat × Nat :=
  let s1 := s.dropWhile isspaceC
  let nSpace := s.length - s1.length
  let neg := s1.headD ' ' = '-'
  let hasSign := s1.headD ' ' = '-' ∨ s1.headD ' ' = '+'
  let s2 := if hasSign then s1.tail else s1
  let hasPre := s2.headD ' ' = '0' ∧
    (s2.tail.headD ' ' = 'x' ∨ s2.tail.headD ' ' = 'X') ∧
    isxdigit (s2.tail.tail.headD ' ')
  let s3 := if hasPre then s2.tail.tail else s2
  let run := hexRun s3 0
  if run.2 = 0 then (0, 0)
  else
    let v := min run.1 ULONG_MAX
    let v2 := if neg then (2 ^ 32 - v) % 2 ^ 32 else v
    (v2, nSpace + (if hasSign then 1 else 0) + (if hasPre then 2 else 0) + run.2)

/-- Function `parse_hex_id` from `twai_utils_parser.c`: `strtoul` over the
input, requiring exactly `len` characters consumed, then the
width-dependent range checks.  Returns the identifier value and the
extended-width flag. -/
def parse_hex_id (s : List Char) (len : Nat) : Except PErr (Nat × Bool) :=
  if len = 0 ∨ len > TWAI_EXT_ID_CHAR_LEN then .error .invalidArg
  else
    let r := strtoul16 s
    if r.2 ≠ len then .error .error
    else if TWAI_STD_ID_CHAR_LEN < len ∧ r.1 > TWAI_EXT_ID_MASK then .error .outOfRange
    else if ¬ TWAI_STD_ID_CHAR_LEN < len ∧ r.1 > TWAI_STD_ID_MASK then .error .outOfRange
    else .ok (r.1, decide (TWAI_STD_ID_CHAR_LEN < len))

/-- Function `parse_twai_id` from `twai_utils_parser.c`: stores the result
of `parse_hex_id` into the frame header (`id`, `ide`). -/
def parse_twai_id (s : List Char) (len : Nat) : Except PErr (Nat × Bool) :=
  parse_hex_id s len

instance {ε α : Type} [DecidableEq ε] [DecidableEq α] : DecidableEq (Except ε α)
  | .error a, .error b =>
    if h : a = b then isTrue (by rw [h])
    else isFalse (by intro he; cases he; exact h rfl)
  | .error _, .ok _ => isFalse (by intro h; cases h)
  | .ok _, .error _ => isFalse (by intro h; cases h)
  | .ok a, .ok b =>
    if h : a = b then isTrue (by rw [h])
    else isFalse (by intro he; cases he; exact h rfl)

/-- Uppercase hexadecimal digit of a value below 16, as printf `%X` emits. -/
def hexDigit (n : Nat) : Char :=
  if n < 10 then Char.ofNat ('0'.toNat + n) else Char.ofNat ('A'.toNat + n - 10)

/-- Digit-accumulation loop behind printf `%X` (fuel-indexed so that the
definition evaluates by kernel reduction; the fuel is always sufficient at
the call site below). -/
def toHexFuel : Nat → Nat → List Char → List Char
  | 0, _, acc => acc
  | fuel + 1, n, acc =>
    if n < 16 then hexDigit n :: acc
    else toHexFuel fuel (n / 16) (hexDigit (n % 16) :: acc)

/-- Minimal uppercase hexadecimal rendering of a number (printf `%X`). -/
def toHexMin (n : Nat) : List Char := toHexFuel (n + 1) n []

/-- printf `%0*X`: minimal hex digits, zero-padded on the left to width `w`. -/
def hexPad (w n : Nat) : List Char :=
  List.replicate (w - (toHexMin n).length) '0' ++ toHexMin n

/-- Digit-accumulation loop behind printf `%d` (fuel-indexed so that the
definition evaluates by kernel reduction). -/
def toDecFuel : Nat → Nat → List Char → List Char
  | 0, _, acc => acc
  | fuel + 1, n, acc =>
    if n < 10 then Char.ofNat ('0'.toNat + n) :: acc
    else toDecFuel fuel (n / 10) (Char.ofNat ('0'.toNat + n % 10) :: acc)

/-- Minimal decimal rendering of a nonnegative number (printf `%d`). -/
def toDecMin (n : Nat) : List Char := toDecFuel (n + 1) n []

/-- printf `%0*d` for nonnegative values: decimal digits zero-padded to
width `w`. -/
def decPad (w n : Nat) : List Char :=
  List.replicate (w - (toDecMin n).length) '0' ++ toDecMin n

/-- Loop of `parse_payload` from `twai_utils_parser.c`: while characters
remain and fewer than `max` bytes were stored, skip `.` separators, stop at
a non-hex first character (error when no byte was stored yet), require a
hex second character, and store the byte.  Returns the stored bytes in
order; their number is the C return value. -/
def parsePayloadAux (max : Nat) : List Char → Nat → Except PErr (List Nat)
  | [], _ => .ok []
  | c :: rest, cnt =>
    if ¬ cnt < max then .ok []
    else if c = '.' then parsePayloadAux max rest cnt
    else if ¬ isxdigit c then
      if cnt = 0 then .error .error else .ok []
    else
      match rest with
      | [] => .error .error
      | c2 :: rest2 =>
        if ¬ isxdigit c2 then .error .error
        else (parsePayloadAux max rest2 (cnt + 1)).map
          (fun bs => (hexVal c * 16 + hexVal c2) :: bs)

/-- Function `parse_payload` from `twai_utils_parser.c`. -/
def parse_payload (s : List Char) (max : Nat) : Except PErr (List Nat) :=
  if max = 0 then .error .invalidArg else parsePayloadAux max s 0

/-- Suffix scan of `parse_classic_frame`: re-walk the body over the `dl`
parsed byte pairs (skipping `.` separators, stopping at a malformed pair)
and return the remaining suffix, where the optional `_` DLC override is
looked for. -/
def scanPairs : List Char → Nat → List Char
  | [], _ => []
  | c :: rest, n =>
    match n with
    | 0 => c :: rest
    | n + 1 =>
      if c = '.' then scanPairs rest (n + 1)
      else
        match rest with
        | [] => c :: rest
        | c2 :: rest2 =>
          if isxdigit c ∧ isxdigit c2 then scanPairs rest2 n
          else c :: rest

/-- Result of the classic-frame body decoder: the header fields it writes
(`rtr`, `dlc`) and the payload bytes stored in the frame buffer
(`buffer_len` is their number). -/
structure ClassicParse where
  rtr : Bool
  dlc : Nat
  bytes : List Nat
  deriving DecidableEq, Repr

/-- Function `parse_classic_frame` from `twai_utils_parser.c`: an `R`/`r`
body is a remote frame whose optional DLC is read with `strtoul` (cast to
`uint8_t`), defaulting to `TWAI_RTR_DEFAULT_DLC`; otherwise the payload is
parsed with `parse_payload`, the parsed pairs are re-scanned, and an `_`
suffix whose nibble exceeds `TWAI_MAX_DATA_LEN` pins the DLC to
`TWAI_MAX_DATA_LEN`. -/
def parse_classic_frame (body : List Char) : Except PErr ClassicParse :=
  match body with
  | c :: rest =>
    if c = 'R' ∨ c = 'r' then
      let dlc :=
        if isxdigit (rest.headD '\x00') then (strtoul16 rest).1 % 256
        else TWAI_RTR_DEFAULT_DLC
      .ok { rtr := true, dlc := dlc, bytes := [] }
    else do
      let bs ← parse_payload body TWAI_MAX_DATA_LEN
      let p := scanPairs body bs.length
      let dlc :=
        match p with
        | '_' :: rest2 =>
          match parse_nibble (rest2.headD '\x00') with
          | some code => if code > TWAI_MAX_DATA_LEN then TWAI_MAX_DATA_LEN else bs.length
          | none => bs.length
        | _ => bs.length
      return { rtr := false, dlc := dlc, bytes := bs }
  | [] => do
    let bs ← parse_payload [] TWAI_MAX_DATA_LEN
    return { rtr := false, dlc := bs.length, bytes := bs }

/-- Modelled from the spec: `twaifd_len2dlc` (HAL helper, not under
`src/`) maps a payload length to the flexible-data-rate DLC through the
fixed quantization table {0-8 one-to-one, then 12, 16, 20, 24, 32, 48,
64}; intermediate lengths take the next table entry. -/
def twaifd_len2dlc (len : Nat) : Nat :=
  if len ≤ 8 then len
  else if len ≤ 12 then 9
  else if len ≤ 16 then 10
  else if len ≤ 20 then 11
  else if len ≤ 24 then 12
  else if len ≤ 32 then 13
  else if len ≤ 48 then 14
  else 15

/-- Result of the FD body decoder: the header fields it writes and the
stored payload bytes. -/
structure FdParse where
  fdf : Bool
  brs : Bool
  esi : Bool
  dlc : Nat
  bytes : List Nat
  deriving DecidableEq, Repr

/-- Function `parse_twaifd_frame` from `twai_utils_parser.c` (the
`CONFIG_EXAMPLE_ENABLE_TWAI_FD` build): a leading flags nibble (any value
up to `TWAI_FD_FLAGS_MAX_VALUE = 15` is legal) sets `brs` (bit 0) and
`esi` (bit 1), then up to 64 payload bytes follow; the DLC is derived with
`twaifd_len2dlc`. -/
def parse_twaifd_frame (body : List Char) : Except PErr FdParse :=
  match body with
  | [] => .error .outOfRange
  | c :: rest =>
    match parse_nibble c with
    | none => .error .outOfRange
    | some flags =>
      if flags > TWAI_FD_FLAGS_MAX_VALUE then .error .outOfRange
      else do
        let bs ← parse_payload rest TWAI_FD_MAX_DATA_LEN
        return { fdf := true, brs := flags % 2 = 1, esi := flags / 2 % 2 = 1,
                 dlc := twaifd_len2dlc bs.length, bytes := bs }

/-- Modelled from the spec: `twaifd_dlc2len` (HAL helper, not under
`src/`), the inverse direction of the fixed quantization table: DLC 0-8
map to themselves and DLC 9-15 map to 12, 16, 20, 24, 32, 48, 64. -/
def twaifd_dlc2len (dlc : Nat) : Nat :=
  if dlc ≤ 8 then dlc
  else if dlc = 9 then 12
  else if dlc = 10 then 16
  else if dlc = 11 then 20
  else if dlc = 12 then 24
  else if dlc = 13 then 32
  else if dlc = 14 then 48
  else 64

/-- Frame record as stored in an `rx_queue_item_t` / `twai_frame_t`: the
header fields and the payload bytes (the meaningful prefix of the frame
buffer; `buffer_len` is their number). -/
structure FrameRecord where
  id : Nat
  ide : Bool
  rtr : Bool
  fdf : Bool
  brs : Bool
  esi : Bool
  dlc : Nat
  bytes : List Nat
  deriving DecidableEq, Repr

/-- Identifier field of `format_twaidump_frame` in `cmd_twai_dump.c`:
`"%08X"` for an extended frame, `"%03X"` for a standard frame. -/
def encodeIdField (r : FrameRecord) : List Char :=
  if r.ide then hexPad TWAI_EXT_ID_CHAR_LEN r.id else hexPad TWAI_STD_ID_CHAR_LEN r.id

/-- Payload length the formatter prints: `twaifd_dlc2len(dlc)` for an FD
frame, `dlc` otherwise (`CONFIG_EXAMPLE_ENABLE_TWAI_FD` build of
`format_twaidump_frame`). -/
def encActualLen (r : FrameRecord) : Nat :=
  if r.fdf then twaifd_dlc2len r.dlc else r.dlc

/-- Frame field of one `format_twaidump_frame` output line, stripped of
the brackets, byte-count and separating spaces: for an RTR frame the `R`
marker followed by the decimal DLC (`"[R%d]"`), otherwise the `"%02X"`
hex pairs of the first `actual_len` buffer bytes. -/
def encodeBodyField (r : FrameRecord) : List Char :=
  if r.rtr then 'R' :: toDecMin r.dlc
  else (((List.range (encActualLen r)).map (fun i => r.bytes.getD i 0)).map
    (fun b => hexPad 2 b)).flatten

/-- Fields of a decoded frame compared by the round-trip property:
identifier, width, remote/data kind and payload bytes. -/
structure DecodedFrame where
  id : Nat
  ide : Bool
  rtr : Bool
  bytes : List Nat
  deriving DecidableEq, Repr

/-- Decoding of the two text fields of a dump line with the dedicated
decoder: the identifier digits through `parse_twai_id` and the frame body
through `parse_classic_frame`. -/
def decodeClassicFields (idField body : List Char) : Except PErr DecodedFrame := do
  let r ← parse_twai_id idField idField.length
  let c ← parse_classic_frame body
  return { id := r.1, ide := r.2, rtr := c.rtr, bytes := c.bytes }

/-- Digit loop of `parse_hex_segment` from `twai_utils_parser.c`:
`result = (result << 4) | nibble`, failing on any non-hex character. -/
def hexSegLoop : List Char → Nat → Except PErr Nat
  | [], acc => .ok acc
  | c :: rest, acc =>
    match parse_nibble c with
    | none => .error .error
    | some v => hexSegLoop rest (acc * 16 + v)

/-- Function `parse_hex_segment` from `twai_utils_parser.c`: a hex string
of bounded length (1 to `TWAI_EXT_ID_CHAR_LEN` characters). -/
def parse_hex_segment (s : List Char) : Except PErr Nat :=
  if s.length = 0 ∨ s.length > TWAI_EXT_ID_CHAR_LEN then .error .invalidArg
  else hexSegLoop s 0

/-- Structure `twai_mask_filter_config_t` (fields used by the example). -/
structure MaskFilterConfig where
  id : Nat
  mask : Nat
  is_ext : Bool
  deriving DecidableEq, Repr

/-- Structure `twai_range_filter_config_t` (fields used by the example). -/
structure RangeFilterConfig where
  range_low : Nat
  range_high : Nat
  is_ext : Bool
  deriving DecidableEq, Repr

/-- Function `parse_filter_token` from `twai_utils_parser.c`
(`SOC_TWAI_SUPPORT_FD` build), parametrized by the hardware capacities
`SOC_TWAI_MASK_FILTER_NUM` / `SOC_TWAI_RANGE_FILTER_NUM` (build-time SoC
constants not present under `src/`).  The accumulated filter lists stand
for the caller's arrays together with the index counters; a store appends
to the list.  A token with a `:` is an `id:mask` filter, otherwise one
with a `-` is a `low-high` range filter requiring `low ≤ high`, otherwise
the token is a format error; the capacity test precedes every store. -/
def parse_filter_token (maskCap rangeCap : Nat) (tok : List Char)
    (masks : List MaskFilterConfig) (ranges : List RangeFilterConfig) :
    Except PErr (List MaskFilterConfig × List RangeFilterConfig) :=
  match tok.findIdx? (· == ':') with
  | some pos =>
    match parse_hex_segment (tok.take pos), parse_hex_segment (tok.drop (pos + 1)) with
    | .ok a, .ok b =>
      if masks.length ≥ maskCap then .error .outOfRange
      else .ok (masks ++ [{ id := a, mask := b, is_ext := false }], ranges)
    | _, _ => .error .error
  | none =>
    match tok.findIdx? (· == '-') with
    | some pos =>
      match parse_hex_segment (tok.take pos), parse_hex_segment (tok.drop (pos + 1)) with
      | .ok a, .ok b =>
        if a > b then .error .error
        else if ranges.length ≥ rangeCap then .error .outOfRange
        else .ok (masks, ranges ++ [{ range_low := a, range_high := b, is_ext := false }])
      | _, _ => .error .error
    | none => .error .error

/-- Token loop of `parse_filters`: tokens are the `,`-separated pieces of
the input, empty tokens are skipped, and a failing token stops the loop,
returning its error together with the filters already stored (the caller's
arrays and counters keep the writes made so far). -/
def parseFiltersLoop (maskCap rangeCap : Nat) :
    List (List Char) → List MaskFilterConfig → List RangeFilterConfig →
    Except PErr Unit × List MaskFilterConfig × List RangeFilterConfig
  | [], masks, ranges => (.ok (), masks, ranges)
  | tok :: rest, masks, ranges =>
    if tok.length = 0 then parseFiltersLoop maskCap rangeCap rest masks ranges
    else
      match parse_filter_token maskCap rangeCap tok masks ranges with
      | .ok mr => parseFiltersLoop maskCap rangeCap rest mr.1 mr.2
      | .error e => (.error e, masks, ranges)

/-- Function `parse_filters` from `twai_utils_parser.c`
(`SOC_TWAI_SUPPORT_FD` build): inputs of `MAX_INPUT_LEN` or more
characters are rejected (before the counters are initialized — the lists
returned on that path are the caller's zero-initialized ones), the empty
string accepts all frames with both lists empty, and otherwise the token
loop runs over the `,`-split input. -/
def parse_filters (maskCap rangeCap : Nat) (s : List Char) :
    Except PErr Unit × List MaskFilterConfig × List RangeFilterConfig :=
  if s.length ≥ MAX_INPUT_LEN then (.error .error, [], [])
  else if s.length = 0 then (.ok (), [], [])
  else parseFiltersLoop maskCap rangeCap (s.splitOn ',') [] []

/-- Filter application step of `twai_dump_handler` in `cmd_twai_dump.c`:
the handler returns before touching the driver whenever `parse_filters`
fails (`ESP_RETURN_ON_FALSE(ret == PARSE_OK, ...)`), so filters reach the
hardware only on a fully successful parse. -/
def twai_dump_apply_filters (maskCap rangeCap : Nat) (s : List Char) :
    Option (List MaskFilterConfig × List RangeFilterConfig) :=
  match parse_filters maskCap rangeCap s with
  | (.ok _, masks, ranges) => some (masks, ranges)
  | (.error _, _, _) => none

/-- ESP-IDF error codes returned by the send and dump modules. -/
inductive EspErr where
  | ok
  | invalidState
  | invalidArg
  | timeout
  | driverError
  | noMem
  deriving DecidableEq, Repr

namespace Send

/-- Constant `TWAI_RTR_DEFAULT_DLC = 0` as redefined in the send
translation unit (`src/unnamed/part_003`), diverging from the header's
value 8. -/
def TWAI_RTR_DEFAULT_DLC : Nat := 0

/-- Constant `TWAI_FD_FLAGS_MAX_VALUE = 3` as redefined in the send
translation unit, diverging from the header's value 15. -/
def TWAI_FD_FLAGS_MAX_VALUE : Nat := 3

/-- Constant `TWAI_MIN_FRAME_LEN = 5` from the send translation unit. -/
def TWAI_MIN_FRAME_LEN : Nat := 5

/-- Function `asc2nibble` from the send translation unit: hexadecimal
digit value, `0xFF` marking an invalid character. -/
def asc2nibble (c : Char) : Nat :=
  if c ≥ '0' ∧ c ≤ '9' then c.toNat - 48
  else if c ≥ 'A' ∧ c ≤ 'F' then c.toNat - 65 + 10
  else if c ≥ 'a' ∧ c ≤ 'f' then c.toNat - 97 + 10
  else 0xFF

/-- Identifier accumulation loop of `parse_frame`: each character must be
a hex digit and the nibbles are assembled big-endian
(`id |= tmp << (k - i) * 4`). -/
def idFromChars (cs : List Char) : Option Nat :=
  cs.foldl
    (fun acc c => acc.bind
      (fun v => if asc2nibble c > 0xF then none else some (v * 16 + asc2nibble c)))
    (some 0)

/-- Data loop of `parse_frame` over the remaining characters: skip `.`
separators, stop when fewer than two characters remain or `max` bytes are
stored, fail on a non-hex character of a pair.  Returns the parsed bytes
and the unconsumed suffix. -/
def inlineDataLoop (max : Nat) : List Char → Nat → Option (List Nat × List Char)
  | rem, dlen =>
    match rem with
    | [] => some ([], [])
    | c :: rest =>
      if ¬ dlen < max then some ([], c :: rest)
      else if c = '.' then inlineDataLoop max rest dlen
      else
        match rest with
        | [] => some ([], c :: rest)
        | c2 :: rest2 =>
          if asc2nibble c > 0xF then none
          else if asc2nibble c2 > 0xF then none
          else
            (inlineDataLoop max rest2 (dlen + 1)).map
              (fun pr => ((asc2nibble c * 16 + asc2nibble c2) :: pr.1, pr.2))

/-- Tail of `parse_frame` after the identifier: RTR marker, optional
second `#` introducing the FD flags nibble (legal only up to 3 here),
payload bytes, too-long detection on leftover hex characters, and the
`_` DLC-override special case. -/
def parseFrameTail (s : List Char) (idx : Nat) (id : Nat) (ide : Bool) :
    Option FrameRecord :=
  if ide = false ∧ id > TWAI_STD_ID_MASK then none
  else
    let c := s.getD idx '\x00'
    if c = 'R' ∨ c = 'r' then
      let c2 := s.getD (idx + 1) '\x00'
      let dlc :=
        if c2 ≠ '\x00' ∧ asc2nibble c2 ≤ TWAI_FRAME_MAX_LEN then asc2nibble c2
        else TWAI_RTR_DEFAULT_DLC
      some { id := id, ide := ide, rtr := true, fdf := false, brs := false,
             esi := false, dlc := dlc, bytes := [] }
    else
      let fdInfo : Option (Nat × Bool × Bool × Bool) :=
        if c = '#' then
          let cf := s.getD (idx + 1) '\x00'
          if cf = '\x00' ∨ asc2nibble cf > 0xF then none
          else if asc2nibble cf > TWAI_FD_FLAGS_MAX_VALUE then none
          else some (idx + 2, true, asc2nibble cf % 2 = 1, asc2nibble cf / 2 % 2 = 1)
        else some (idx, false, false, false)
      match fdInfo with
      | none => none
      | some (idx2, is_fd, brs, esi) =>
        let max := if is_fd then TWAIFD_FRAME_MAX_LEN else TWAI_FRAME_MAX_LEN
        match inlineDataLoop max (s.drop idx2) 0 with
        | none => none
        | some (bytes, rem2) =>
          let tooLong : Bool :=
            match rem2 with
            | [] => false
            | c3 :: _ =>
              if c3 = '_' then false
              else decide
                ((rem2.filter (fun ch => ch ≠ '.' ∧ ch ≠ '_' ∧ isxdigit ch)).length > 0)
          if tooLong then none
          else
            let dlc :=
              if max = TWAI_FRAME_MAX_LEN ∧ bytes.length = TWAI_FRAME_MAX_LEN then
                match rem2 with
                | '_' :: rest3 =>
                  match rest3 with
                  | [] => bytes.length
                  | c4 :: _ =>
                    if asc2nibble c4 ≤ TWAIFD_FRAME_MAX_LEN then
                      if asc2nibble c4 > TWAI_FRAME_MAX_LEN then TWAI_FRAME_MAX_LEN
                      else bytes.length
                    else bytes.length
                | _ => bytes.length
              else bytes.length
            some { id := id, ide := ide, rtr := false, fdf := is_fd, brs := brs,
                   esi := esi, dlc := dlc, bytes := bytes }

/-- Function `parse_frame` from the send translation unit
(`src/unnamed/part_003`, `CONFIG_EXAMPLE_ENABLE_TWAI_FD` build): the
inline decoder of the same `<id>#<body>` grammar handled by the dedicated
decoder of `twai_utils_parser.c`.  Out-of-bounds reads of the C string are
modelled as reading the terminating NUL. -/
def parse_frame (s : List Char) : Option FrameRecord :=
  if s.length < TWAI_MIN_FRAME_LEN then none
  else if s.getD 3 '\x00' = '#' then
    match idFromChars (s.take 3) with
    | none => none
    | some id => parseFrameTail s 4 id false
  else if s.getD 8 '\x00' = '#' then
    match idFromChars (s.take 8) with
    | none => none
    | some id =>
      if id > TWAI_EXT_ID_MASK then none
      else parseFrameTail s 9 id true
  else none

/-- State of `twai_send_ctx_t` seen by the rendezvous: the atomic
`is_tx_pending` flag and the binary `tx_done_sem` (`true` when the
semaphore has been given and not yet taken). -/
structure SendCtx where
  is_tx_pending : Bool
  tx_done_sem : Bool
  deriving DecidableEq, Repr

/-- Callback `twai_send_tx_done_cb` from the send translation unit: gives
the semaphore and clears the pending flag only when the flag is currently
set; otherwise it changes nothing.  The returned boolean tells whether
completion was signalled. -/
def twai_send_tx_done_cb (c : SendCtx) : SendCtx × Bool :=
  if c.is_tx_pending then ({ is_tx_pending := false, tx_done_sem := true }, true)
  else (c, false)

/-- Function `send_frame_sync` from the send translation unit, modelled
over one execution: `init` is the controller's `is_initialized` flag,
`driverOk` tells whether `twai_node_transmit` accepts the frame, and
`cbDuringWait` whether the transmit-done callback fires before the
semaphore wait expires.  Mirrors the C control flow: mark pending, submit,
clear-and-fail on rejection, wait on the semaphore, clear-and-time-out
when it was never given. -/
def send_frame_sync (init driverOk cbDuringWait : Bool) (c : SendCtx) :
    SendCtx × EspErr :=
  if ¬ init then (c, .invalidState)
  else
    let c1 := { c with is_tx_pending := true }
    if ¬ driverOk then ({ c1 with is_tx_pending := false }, .driverError)
    else
      let c2 := if cbDuringWait then (twai_send_tx_done_cb c1).1 else c1
      if c2.tx_done_sem then ({ c2 with tx_done_sem := false }, .ok)
      else ({ c2 with is_tx_pending := false }, .timeout)

end Send

namespace Dump

/-- Capture-pipeline state of `twai_dump_ctx_t`: the atomic running flag,
whether `rx_queue` is non-NULL, and whether the dump task handle is set. -/
structure DumpState where
  is_running : Bool
  has_queue : Bool
  has_task : Bool
  deriving DecidableEq, Repr

/-- State mutations of `twai_dump_start_controller`, in program order. -/
inductive StartStep where
  | allocQueue
  | setRunning
  | createTask
  deriving DecidableEq, Repr

/-- Function `twai_dump_start_controller` from `cmd_twai_dump.c`:
already-running is a no-op success; otherwise the queue is created, the
running flag set, and the task launched, in that order (the step trace
records the order); queue-allocation failure returns `ESP_ERR_NO_MEM`
with the flag still clear, task-creation failure rolls both back. -/
def twai_dump_start_controller (allocOk taskOk : Bool) (c : DumpState) :
    DumpState × EspErr × List StartStep :=
  if c.is_running then (c, .ok, [])
  else
    let c1 := { c with has_queue := allocOk }
    if ¬ allocOk then (c1, .noMem, [.allocQueue])
    else
      let c2 := { c1 with is_running := true }
      if taskOk then
        ({ c2 with has_task := true }, .ok, [.allocQueue, .setRunning, .createTask])
      else
        ({ c2 with is_running := false, has_queue := false }, .noMem,
          [.allocQueue, .setRunning, .createTask])

/-- Timestamp modes of the dump command (`timestamp_mode_t`). -/
inductive TimestampMode where
  | noneMode
  | absolute
  | delta
  | zero
  deriving DecidableEq, Repr

/-- Timestamp-related fields of `twai_dump_ctx_t`. -/
structure TsCtx where
  timestamp_mode : TimestampMode
  start_time_us : Int
  last_frame_time_us : Int
  deriving DecidableEq, Repr

/-- printf `%lld` of a 64-bit value. -/
def renderInt (v : Int) : List Char :=
  if v < 0 then '-' :: toDecMin (-v).toNat else toDecMin v.toNat

/-- printf `%06lld` of a 64-bit value. -/
def renderIntPad6 (v : Int) : List Char :=
  if v < 0 then '-' :: decPad 5 (-v).toNat else decPad 6 v.toNat

/-- The `"(%lld.%06lld) "` rendering of a microsecond timestamp, using
C's truncating 64-bit division and remainder. -/
def renderTimestamp (us : Int) : List Char :=
  '(' :: renderInt (Int.tdiv us 1000000) ++
    '.' :: renderIntPad6 (Int.tmod us 1000000) ++ [')', ' ']

/-- Function `format_timestamp` from `cmd_twai_dump.c`: empty prefix in
`none` mode, the capture time in `absolute` mode, the distance to the
previous displayed frame in `delta` mode (also updating
`last_frame_time_us`), and the distance to the capture start in `zero`
mode. -/
def format_timestamp (ctx : TsCtx) (t : Int) : TsCtx × List Char :=
  match ctx.timestamp_mode with
  | .noneMode => (ctx, [])
  | .absolute => (ctx, renderTimestamp t)
  | .delta =>
    ({ ctx with last_frame_time_us := t }, renderTimestamp (t - ctx.last_frame_time_us))
  | .zero => (ctx, renderTimestamp (t - ctx.start_time_us))

end Dump

end TwaiUtils

namespace TwaiUtils

/-- C2: the body `"0102030405060708"` decodes to exactly eight payload
bytes 0x01..0x08 with DLC 8, as claimed; but contrary to the claim, a
classic body carrying a ninth hex byte pair does NOT fail with a TooLong
error in the dedicated decoder: `parse_classic_frame` silently truncates
`"010203040506070809"` to the same eight bytes and returns success (the
header's `PARSE_TOO_LONG` code is never produced).  Only the inline
decoder of the send command rejects the ninth pair. -/
theorem classic_ninth_byte_pair_silently_truncated :
    parse_classic_frame "0102030405060708".toList =
      .ok { rtr := false, dlc := 8, bytes := [1, 2, 3, 4, 5, 6, 7, 8] } ∧
    parse_classic_frame "010203040506070809".toList =
      .ok { rtr := false, dlc := 8, bytes := [1, 2, 3, 4, 5, 6, 7, 8] } ∧
    Send.parse_frame "123#010203040506070809".toList = none := by
  decide

/-- C3: the dedicated decoder and the inline decoder of the send command
disagree on the same grammar.  On the body `"R"` (no DLC nibble) the
dedicated `parse_classic_frame` defaults the DLC to 8 while the inline
`parse_frame` on `"123#R"` defaults it to 0; and the FD flags nibble 4 is
accepted by the dedicated `parse_twaifd_frame` (legal up to 15) but
rejected by the inline decoder on `"123##4"` (legal only up to 3).  The
two decoders are therefore not equivalent. -/
theorem inline_and_dedicated_decoders_disagree :
    parse_classic_frame ['R'] = .ok { rtr := true, dlc := 8, bytes := [] } ∧
    Send.parse_frame "123#R".toList =
      some { id := 0x123, ide := false, rtr := true, fdf := false, brs := false,
             esi := false, dlc := 0, bytes := [] } ∧
    TWAI_RTR_DEFAULT_DLC = 8 ∧ Send.TWAI_RTR_DEFAULT_DLC = 0 ∧
    parse_twaifd_frame ['4'] =
      .ok { fdf := true, brs := false, esi := false, dlc := 0, bytes := [] } ∧
    Send.parse_frame "123##4".toList = none ∧
    TWAI_FD_FLAGS_MAX_VALUE = 15 ∧ Send.TWAI_FD_FLAGS_MAX_VALUE = 3 := by
  decide

/-- C7: in a run where no transmit-done notification arrives during the
wait, `send_frame_sync` returns `ESP_ERR_TIMEOUT` with the pending flag
cleared (and the semaphore still empty), the transmit-done callback is a
no-op on any state whose pending flag is clear — in particular on the
post-timeout state — and a subsequent transmit on the same controller is
not blocked: when its completion callback fires it returns `ESP_OK`. -/
theorem transmit_rendezvous_timeout_spec (c d : Send.SendCtx)
    (h : c.tx_done_sem = false) (hd : d.is_tx_pending = false) :
    (Send.send_frame_sync true true false c).2 = .timeout ∧
    (Send.send_frame_sync true true false c).1 =
      { is_tx_pending := false, tx_done_sem := false } ∧
    Send.twai_send_tx_done_cb d = (d, false) ∧
    (Send.send_frame_sync true true true
      (Send.send_frame_sync true true false c).1).2 = .ok := by
  rcases c with ⟨cp, cs⟩
  rcases d with ⟨dp, ds⟩
  cases cp <;> cases cs <;> cases dp <;> cases ds <;> revert h hd <;> decide

/-- Witness for C7 at a freshly initialized send context (flag clear,
semaphore empty). -/
theorem transmit_rendezvous_timeout_witness :
    (Send.send_frame_sync true true false ⟨false, false⟩).2 = .timeout ∧
    (Send.send_frame_sync true true false ⟨false, false⟩).1 =
      { is_tx_pending := false, tx_done_sem := false } ∧
    Send.twai_send_tx_done_cb ⟨false, false⟩ = (⟨false, false⟩, false) ∧
    (Send.send_frame_sync true true true
      (Send.send_frame_sync true true false ⟨false, false⟩).1).2 = .ok :=
  transmit_rendezvous_timeout_spec ⟨false, false⟩ ⟨false, false⟩ rfl rfl

/-- C8: `twai_dump_start_controller` is an idempotent no-op success when
the pipeline is already running; from an idle state with a failing queue
allocation it returns `ESP_ERR_NO_MEM` leaving the state idle (running
flag clear, no queue); and on the successful path it performs the queue
allocation, the running-flag set, and the task launch in that order. -/
theorem capture_pipeline_start_spec (allocOk taskOk : Bool) (c : Dump.DumpState) :
    (c.is_running = true → Dump.twai_dump_start_controller allocOk taskOk c = (c, .ok, [])) ∧
    (c.is_running = false → allocOk = false →
      Dump.twai_dump_start_controller allocOk taskOk c =
        ({ c with has_queue := false }, .noMem, [.allocQueue])) ∧
    (c.is_running = false → allocOk = true → taskOk = true →
      Dump.twai_dump_start_controller allocOk taskOk c =
        ({ is_running := true, has_queue := true, has_task := true }, .ok,
          [.allocQueue, .setRunning, .createTask])) := by
  refine ⟨fun h1 => ?_, fun h1 h2 => ?_, fun h1 h2 h3 => ?_⟩ <;>
    simp_all [Dump.twai_dump_start_controller]

/-- Witness for C8: concrete instances of all three branches from the
initial idle state and from a running state. -/
theorem capture_pipeline_start_witness :
    Dump.twai_dump_start_controller true true ⟨true, true, true⟩ =
      (⟨true, true, true⟩, .ok, []) ∧
    Dump.twai_dump_start_controller false true ⟨false, false, false⟩ =
      (⟨false, false, false⟩, .noMem, [.allocQueue]) ∧
    Dump.twai_dump_start_controller true true ⟨false, false, false⟩ =
      ({ is_running := true, has_queue := true, has_task := true }, .ok,
        [.allocQueue, .setRunning, .createTask]) :=
  ⟨(capture_pipeline_start_spec true true ⟨true, true, true⟩).1 rfl,
   (capture_pipeline_start_spec false true ⟨false, false, false⟩).2.1 rfl rfl,
   (capture_pipeline_start_spec true true ⟨false, false, false⟩).2.2 rfl rfl rfl⟩

/-- C9: with `start_time_us` and `last_frame_time_us` both initialized to
the session start `s` (as `twai_dump_handler` does), delta mode applied to
capture times `t1`, `t2`, `t3` in order yields the values `t1 - s`,
`t2 - t1`, `t3 - t2`, updating `last_frame_time_us` after each frame;
zero mode yields `t - s`, absolute mode yields `t`, none mode yields the
empty prefix; and a non-empty prefix renders as `"(seconds.microseconds) "`
with the microsecond field zero-padded to six digits. -/
theorem timestamp_formatting_spec (s t1 t2 t3 t : Int) :
    Dump.format_timestamp
        { timestamp_mode := .delta, start_time_us := s, last_frame_time_us := s } t1 =
      ({ timestamp_mode := .delta, start_time_us := s, last_frame_time_us := t1 },
        Dump.renderTimestamp (t1 - s)) ∧
    Dump.format_timestamp
        { timestamp_mode := .delta, start_time_us := s, last_frame_time_us := t1 } t2 =
      ({ timestamp_mode := .delta, start_time_us := s, last_frame_time_us := t2 },
        Dump.renderTimestamp (t2 - t1)) ∧
    Dump.format_timestamp
        { timestamp_mode := .delta, start_time_us := s, last_frame_time_us := t2 } t3 =
      ({ timestamp_mode := .delta, start_time_us := s, last_frame_time_us := t3 },
        Dump.renderTimestamp (t3 - t2)) ∧
    Dump.format_timestamp
        { timestamp_mode := .zero, start_time_us := s, last_frame_time_us := s } t =
      ({ timestamp_mode := .zero, start_time_us := s, last_frame_time_us := s },
        Dump.renderTimestamp (t - s)) ∧
    Dump.format_timestamp
        { timestamp_mode := .absolute, start_time_us := s, last_frame_time_us := s } t =
      ({ timestamp_mode := .absolute, start_time_us := s, last_frame_time_us := s },
        Dump.renderTimestamp t) ∧
    Dump.format_timestamp
        { timestamp_mode := .noneMode, start_time_us := s, last_frame_time_us := s } t =
      ({ timestamp_mode := .noneMode, start_time_us := s, last_frame_time_us := s }, []) ∧
    Dump.renderTimestamp 2500003 = "(2.500003) ".toList ∧
    Dump.renderTimestamp 5 = "(0.000005) ".toList :=
  ⟨rfl, rfl, rfl, rfl, rfl, rfl, by decide, by decide⟩

/-- C4: the three-digit identifier `"800"` (value 0x800 > 0x7FF) fails
with the out-of-range error while `"7FF"` succeeds as a standard-width
identifier of value 0x7FF — in both the dedicated decoder
(`parse_twai_id` over the text up to the `#`) and the inline decoder of
the send command — and in general every successful `parse_twai_id` yields
an identifier within 0x7FF for the standard width and within 0x1FFFFFFF
for the extended width. -/
theorem identifier_range_spec (s : List Char) (len id : Nat) (ext : Bool)
    (h : parse_twai_id s len = .ok (id, ext)) :
    parse_twai_id "800#00".toList 3 = .error .outOfRange ∧
    parse_twai_id "7FF#00".toList 3 = .ok (0x7FF, false) ∧
    Send.parse_frame "800#00".toList = none ∧
    (Send.parse_frame "7FF#00".toList).map (fun f => (f.id, f.ide)) =
      some (0x7FF, false) ∧
    (ext = false → id ≤ TWAI_STD_ID_MASK) ∧ (ext = true → id ≤ TWAI_EXT_ID_MASK) := by
  refine ⟨by decide, by decide, by decide, by decide, ?_, ?_⟩ <;>
  · intro he
    subst he
    simp only [parse_twai_id, parse_hex_id] at h
    split at h
    · exact absurd h (by simp)
    next hlen =>
      split at h
      · exact absurd h (by simp)
      next hcons =>
        split at h
        · exact absurd h (by simp)
        next hExt =>
          split at h
          · exact absurd h (by simp)
          next hStd =>
            simp only [Except.ok.injEq, Prod.mk.injEq] at h
            obtain ⟨hid, hext⟩ := h
            subst hid
            simp only [not_and, not_lt, decide_eq_false_iff_not, decide_eq_true_eq,
              not_le] at hExt hStd hext
            simp only [TWAI_STD_ID_CHAR_LEN, TWAI_EXT_ID_CHAR_LEN, TWAI_STD_ID_MASK,
              TWAI_EXT_ID_MASK] at *
            omega

/-- Witness for C4 at the successful standard-width decode of `"7FF"`. -/
theorem identifier_range_witness :
    parse_twai_id "800#00".toList 3 = .error .outOfRange ∧
    parse_twai_id "7FF#00".toList 3 = .ok (0x7FF, false) ∧
    Send.parse_frame "800#00".toList = none ∧
    (Send.parse_frame "7FF#00".toList).map (fun f => (f.id, f.ide)) =
      some (0x7FF, false) ∧
    (false = false → 0x7FF ≤ TWAI_STD_ID_MASK) ∧
    (false = true → 0x7FF ≤ TWAI_EXT_ID_MASK) :=
  identifier_range_spec "7FF#00".toList 3 0x7FF false (by decide)

theorem parse_filter_token_preserves_bound {mc rc : Nat} {tok : List Char}
    {masks m2 : List MaskFilterConfig} {ranges r2 : List RangeFilterConfig}
    (h : parse_filter_token mc rc tok masks ranges = .ok (m2, r2))
    (hm : masks.length ≤ mc) (hr : ranges.length ≤ rc) :
    m2.length ≤ mc ∧ r2.length ≤ rc := by
  simp only [parse_filter_token] at h
  split at h
  · split at h
    · split at h
      · exact absurd h (by simp)
      next hcap =>
        simp only [Except.ok.injEq, Prod.mk.injEq] at h
        obtain ⟨h1, h2⟩ := h
        subst h1
        subst h2
        constructor
        · simp only [List.length_append, List.length_cons, List.length_nil]
          omega
        · exact hr
    · exact absurd h (by simp)
  · split at h
    · split at h
      · split at h
        · exact absurd h (by simp)
        · split at h
          · exact absurd h (by simp)
          next hcap =>
            simp only [Except.ok.injEq, Prod.mk.injEq] at h
            obtain ⟨h1, h2⟩ := h
            subst h1
            subst h2
            constructor
            · exact hm
            · simp only [List.length_append, List.length_cons, List.length_nil]
              omega
      · exact absurd h (by simp)
    · exact absurd h (by simp)

theorem parseFiltersLoop_bound (mc rc : Nat) (toks : List (List Char))
    (masks : List MaskFilterConfig) (ranges : List RangeFilterConfig)
    (hm : masks.length ≤ mc) (hr : ranges.length ≤ rc) :
    (parseFiltersLoop mc rc toks masks ranges).2.1.length ≤ mc ∧
    (parseFiltersLoop mc rc toks masks ranges).2.2.length ≤ rc := by
  induction toks generalizing masks ranges with
  | nil => exact ⟨hm, hr⟩
  | cons tok rest ih =>
    simp only [parseFiltersLoop]
    split
    · exact ih _ _ hm hr
    · split
      next mr heq =>
        have hb := parse_filter_token_preserves_bound heq hm hr
        exact ih _ _ hb.1 hb.2
      next e heq => exact ⟨hm, hr⟩

/-- C10: for every input string and the build's hardware capacities,
`parse_filters` never stores more than `SOC_TWAI_MASK_FILTER_NUM` mask
filters nor more than `SOC_TWAI_RANGE_FILTER_NUM` range filters — on
every return, success or error, the output counts stay within the
caller's fixed-size arrays because `parse_filter_token` checks the index
against the capacity before every store. -/
theorem filter_capacity_bound (mc rc : Nat) (s : List Char) :
    (parse_filters mc rc s).2.1.length ≤ mc ∧
    (parse_filters mc rc s).2.2.length ≤ rc := by
  simp only [parse_filters]
  split
  · simp
  · split
    · simp
    · exact parseFiltersLoop_bound mc rc _ [] [] (by simp) (by simp)

theorem parse_filter_token_mask_ok {mc rc pos a b : Nat} {tok : List Char}
    {masks : List MaskFilterConfig} {ranges : List RangeFilterConfig}
    (hf : tok.findIdx? (· == ':') = some pos)
    (ha : parse_hex_segment (tok.take pos) = .ok a)
    (hb : parse_hex_segment (tok.drop (pos + 1)) = .ok b)
    (hcap : masks.length < mc) :
    parse_filter_token mc rc tok masks ranges =
      .ok (masks ++ [{ id := a, mask := b, is_ext := false }], ranges) := by
  simp only [parse_filter_token, hf, ha, hb]
  rw [if_neg (by omega)]

theorem parse_filter_token_range_ok {mc rc pos a b : Nat} {tok : List Char}
    {masks : List MaskFilterConfig} {ranges : List RangeFilterConfig}
    (hf : tok.findIdx? (· == ':') = none)
    (hg : tok.findIdx? (· == '-') = some pos)
    (ha : parse_hex_segment (tok.take pos) = .ok a)
    (hb : parse_hex_segment (tok.drop (pos + 1)) = .ok b)
    (hab : ¬ a > b)
    (hcap : ranges.length < rc) :
    parse_filter_token mc rc tok masks ranges =
      .ok (masks, ranges ++ [{ range_low := a, range_high := b, is_ext := false }]) := by
  simp only [parse_filter_token, hf, hg, ha, hb]
  rw [if_neg hab, if_neg (by omega)]

/-- C6: `parse_filters` on `"123:7FF,010-020"` yields exactly one mask
filter {0x123, 0x7FF} and one range filter {0x010, 0x020}; the empty
string succeeds with both lists empty (accept-all); tokens are split on
`,` with empty tokens skipped; a token containing `:` parses as a mask
filter; a token containing `-` parses as a range filter requiring
`low ≤ high` (`"020-010"` is a format error); and a token with neither
separator is a format error.  Stated for any hardware capacities of at
least one slot per kind. -/
theorem filter_grammar_spec (mc rc : Nat) (hm : 1 ≤ mc) (hr : 1 ≤ rc) :
    parse_filters mc rc "123:7FF,010-020".toList =
      (.ok (), [{ id := 0x123, mask := 0x7FF, is_ext := false }],
        [{ range_low := 0x10, range_high := 0x20, is_ext := false }]) ∧
    parse_filters mc rc "".toList = (.ok (), [], []) ∧
    parse_filters mc rc ",123:7FF,,".toList =
      (.ok (), [{ id := 0x123, mask := 0x7FF, is_ext := false }], []) ∧
    parse_filters mc rc "020-010".toList = (.error .error, [], []) ∧
    parse_filters mc rc "xyz".toList = (.error .error, [], []) := by
  have hmask : parse_filter_token mc rc ['1', '2', '3', ':', '7', 'F', 'F'] [] [] =
      .ok ([{ id := 0x123, mask := 0x7FF, is_ext := false }], []) := by
    rw [@parse_filter_token_mask_ok mc rc 3 0x123 0x7FF
      ['1', '2', '3', ':', '7', 'F', 'F'] [] [] (by decide) (by decide) (by decide)
      (by simpa using hm)]
    simp
  have hrange : parse_filter_token mc rc ['0', '1', '0', '-', '0', '2', '0']
      [{ id := 0x123, mask := 0x7FF, is_ext := false }] [] =
      .ok ([{ id := 0x123, mask := 0x7FF, is_ext := false }],
        [{ range_low := 0x10, range_high := 0x20, is_ext := false }]) := by
    rw [@parse_filter_token_range_ok mc rc 3 0x10 0x20
      ['0', '1', '0', '-', '0', '2', '0'] [{ id := 0x123, mask := 0x7FF, is_ext := false }]
      [] (by decide) (by decide) (by decide) (by decide) (by decide)
      (by simpa using hr)]
    simp
  refine ⟨?_, ?_, ?_, ?_, ?_⟩
  · have hs : ("123:7FF,010-020".toList).splitOn ',' =
        ["123:7FF".toList, "010-020".toList] := by decide
    simp [parse_filters, parseFiltersLoop, MAX_INPUT_LEN, hs, hmask, hrange]
  · simp only [parse_filters]
    rw [if_neg (by decide), if_pos (by decide)]
  · have hs : (",123:7FF,,".toList).splitOn ',' =
        [[], "123:7FF".toList, [], []] := by decide
    simp [parse_filters, parseFiltersLoop, MAX_INPUT_LEN, hs, hmask]
  · have hs : ("020-010".toList).splitOn ',' = ["020-010".toList] := by decide
    have htok : parse_filter_token mc rc ['0', '2', '0', '-', '0', '1', '0'] [] [] =
        .error .error := by
      simp only [parse_filter_token]
      have hf : List.findIdx? (· == ':') ['0', '2', '0', '-', '0', '1', '0'] = none := by
        decide
      have hg : List.findIdx? (· == '-') ['0', '2', '0', '-', '0', '1', '0'] = some 3 := by
        decide
      simp only [hf, hg]
      have ha : parse_hex_segment (List.take 3 ['0', '2', '0', '-', '0', '1', '0']) =
          .ok 0x20 := by decide
      have hb : parse_hex_segment (List.drop 4 ['0', '2', '0', '-', '0', '1', '0']) =
          .ok 0x10 := by decide
      simp only [ha, hb]
      rw [if_pos (by decide)]
    simp [parse_filters, parseFiltersLoop, MAX_INPUT_LEN, hs, htok]
  · have hs : ("xyz".toList).splitOn ',' = ["xyz".toList] := by decide
    have htok : parse_filter_token mc rc ['x', 'y', 'z'] [] [] = .error .error := by
      simp only [parse_filter_token]
      have hf : List.findIdx? (· == ':') ['x', 'y', 'z'] = none := by decide
      have hg : List.findIdx? (· == '-') ['x', 'y', 'z'] = none := by decide
      simp only [hf, hg]
    simp [parse_filters, parseFiltersLoop, MAX_INPUT_LEN, hs, htok]

theorem hexDigit_props :
    ∀ d : Nat, d < 16 →
      isxdigit (hexDigit d) = true ∧ hexVal (hexDigit d) = d ∧
      isspaceC (hexDigit d) = false ∧ hexDigit d ≠ '-' ∧ hexDigit d ≠ '+' ∧
      hexDigit d ≠ 'x' ∧ hexDigit d ≠ 'X' ∧ hexDigit d ≠ '.' ∧
      hexDigit d ≠ 'R' ∧ hexDigit d ≠ 'r' ∧ hexDigit d ≠ '_' := by decide

theorem toHexFuel_append (fuel : Nat) :
    ∀ n acc, toHexFuel fuel n acc = toHexFuel fuel n [] ++ acc := by
  induction fuel with
  | zero => intro n acc; simp [toHexFuel]
  | succ f ih =>
    intro n acc
    by_cases h : n < 16
    · simp [toHexFuel, h]
    · simp only [toHexFuel, if_neg h]
      rw [ih (n / 16) (hexDigit (n % 16) :: acc), ih (n / 16) [hexDigit (n % 16)]]
      simp

theorem toHexFuel_small (fuel n : Nat) (acc : List Char) (hf : 0 < fuel)
    (hn : n < 16) : toHexFuel fuel n acc = hexDigit n :: acc := by
  cases fuel with
  | zero => omega
  | succ f => simp [toHexFuel, hn]

theorem toHexFuel_mem (fuel : Nat) :
    ∀ n c, c ∈ toHexFuel fuel n [] → ∃ d, d < 16 ∧ c = hexDigit d := by
  induction fuel with
  | zero => intro n c hc; simp [toHexFuel] at hc
  | succ f ih =>
    intro n c hc
    by_cases h : n < 16
    · simp [toHexFuel, h] at hc
      exact ⟨n, h, hc⟩
    · simp only [toHexFuel, if_neg h] at hc
      rw [toHexFuel_append] at hc
      rcases List.mem_append.mp hc with h1 | h2
      · exact ih (n / 16) c h1
      · simp at h2
        exact ⟨n % 16, by omega, h2⟩

theorem toHexFuel_val (fuel : Nat) :
    ∀ n, 0 < fuel → n < 16 ^ fuel →
      ∀ a, List.foldl (fun x c => x * 16 + hexVal c) a (toHexFuel fuel n []) =
        a * 16 ^ (toHexFuel fuel n []).length + n := by
  induction fuel with
  | zero => intro n h; omega
  | succ f ih =>
    intro n _ hn a
    by_cases h : n < 16
    · simp [toHexFuel, h, (hexDigit_props n h).2.1]
    · have hf : 0 < f := by
        rcases Nat.eq_zero_or_pos f with h0 | h0
        · subst h0; simp at hn; omega
        · exact h0
      have hdiv : n / 16 < 16 ^ f := by
        rw [pow_succ, mul_comm] at hn
        exact Nat.div_lt_of_lt_mul hn
      simp only [toHexFuel, if_neg h]
      rw [toHexFuel_append]
      rw [List.foldl_append, List.length_append]
      rw [ih (n / 16) hf hdiv a]
      simp only [(hexDigit_props (n % 16) (by omega)).2.1, List.foldl_cons,
        List.length_cons, List.foldl_nil, List.length_nil]
      have hmod : 16 * (n / 16) + n % 16 = n := Nat.div_add_mod n 16
      rw [pow_succ]
      ring_nf
      omega

theorem toHexFuel_len_le (fuel : Nat) :
    ∀ n k, 0 < k → n < 16 ^ k → (toHexFuel fuel n []).length ≤ k := by
  induction fuel with
  | zero => intro n k _ _; simp [toHexFuel]
  | succ f ih =>
    intro n k hk hn
    by_cases h : n < 16
    · simp [toHexFuel, h]; omega
    · have hk2 : 2 ≤ k := by
        by_contra hc
        interval_cases k
        simp at hn
        omega
      have hdiv : n / 16 < 16 ^ (k - 1) := by
        have : 16 ^ k = 16 ^ (k - 1) * 16 := by
          rw [← pow_succ]
          congr 1
          omega
        rw [this, mul_comm] at hn
        exact Nat.div_lt_of_lt_mul hn
      simp only [toHexFuel, if_neg h]
      rw [toHexFuel_append, List.length_append]
      have := ih (n / 16) (k - 1) (by omega) hdiv
      simp only [List.length_cons, List.length_nil]
      omega

theorem foldl_hex_replicate_zero (k : Nat) :
    List.foldl (fun x c => x * 16 + hexVal c) 0 (List.replicate k '0') = 0 := by
  induction k with
  | zero => rfl
  | succ j ih => simpa [List.replicate_succ, hexVal, parse_nibble] using ih

theorem hexPad_spec (w n : Nat) (hw : 0 < w) (hn : n < 16 ^ w) :
    (hexPad w n).length = w ∧
    List.foldl (fun x c => x * 16 + hexVal c) 0 (hexPad w n) = n ∧
    ∀ c ∈ hexPad w n, ∃ d, d < 16 ∧ c = hexDigit d := by
  have hlen : (toHexMin n).length ≤ w := toHexFuel_len_le (n + 1) n w hw hn
  have hfuel : 0 < n + 1 := Nat.succ_pos n
  have hpow : n < 16 ^ (n + 1) := by
    calc n < 16 ^ n := Nat.lt_pow_self (by omega) n
    _ ≤ 16 ^ (n + 1) := Nat.pow_le_pow_right (by omega) (by omega)
  refine ⟨?_, ?_, ?_⟩
  · simp only [hexPad, List.length_append, List.length_replicate]
    omega
  · simp only [hexPad]
    rw [List.foldl_append, foldl_hex_replicate_zero]
    have := toHexFuel_val (n + 1) n hfuel hpow 0
    simpa [toHexMin] using this
  · intro c hc
    simp only [hexPad, List.mem_append] at hc
    rcases hc with h1 | h2
    · have : c = '0' := List.eq_of_mem_replicate h1
      exact ⟨0, by omega, by simp [this, hexDigit]⟩
    · exact toHexFuel_mem (n + 1) n c h2

theorem hexRun_all_hex :
    ∀ (l : List Char) (a : Nat), (∀ c ∈ l, isxdigit c = true) →
      hexRun l a = (List.foldl (fun x c => x * 16 + hexVal c) a l, l.length) := by
  intro l
  induction l with
  | nil => intro a _; rfl
  | cons c rest ih =>
    intro a hall
    have hc : isxdigit c = true := hall c (by simp)
    simp only [hexRun, hc, if_pos]
    rw [ih (a * 16 + hexVal c) (fun x hx => hall x (by simp [hx]))]
    simp

theorem foldl_hex_lt :
    ∀ (l : List Char) (a : Nat), (∀ c ∈ l, ∃ d, d < 16 ∧ c = hexDigit d) →
      List.foldl (fun x c => x * 16 + hexVal c) a l < (a + 1) * 16 ^ l.length := by
  intro l
  induction l with
  | nil => intro a _; simp
  | cons c rest ih =>
    intro a hmem
    obtain ⟨d, hd, hcd⟩ := hmem c (by simp)
    have hv : hexVal c < 16 := by
      rw [hcd, (hexDigit_props d hd).2.1]
      omega
    calc List.foldl (fun x c => x * 16 + hexVal c) (a * 16 + hexVal c) rest
        < (a * 16 + hexVal c + 1) * 16 ^ rest.length :=
          ih _ (fun x hx => hmem x (by simp [hx]))
      _ ≤ (a + 1) * 16 ^ (rest.length + 1) := by
          have : a * 16 + hexVal c + 1 ≤ (a + 1) * 16 := by omega
          calc (a * 16 + hexVal c + 1) * 16 ^ rest.length
              ≤ (a + 1) * 16 * 16 ^ rest.length := Nat.mul_le_mul_right _ this
            _ = (a + 1) * 16 ^ (rest.length + 1) := by ring
      _ = (a + 1) * 16 ^ (c :: rest).length := by simp

theorem strtoul16_upHex (l : List Char) (hne : l ≠ [])
    (hlen : l.length ≤ 8)
    (hmem : ∀ c ∈ l, ∃ d, d < 16 ∧ c = hexDigit d) :
    strtoul16 l = (List.foldl (fun x c => x * 16 + hexVal c) 0 l, l.length) := by
  rcases l with _ | ⟨c, rest⟩
  · exact absurd rfl hne
  obtain ⟨d, hd, hcd⟩ := hmem c (by simp)
  have hprops := hexDigit_props d hd
  have hdrop : (c :: rest).dropWhile isspaceC = c :: rest := by
    rw [List.dropWhile_cons]
    simp [hcd, hprops.2.2.1]
  have hallhex : ∀ x ∈ c :: rest, isxdigit x = true := by
    intro x hx
    obtain ⟨e, he, hxe⟩ := hmem x hx
    rw [hxe]
    exact (hexDigit_props e he).1
  have hneg : c ≠ '-' := hcd ▸ hprops.2.2.2.1
  have hplus : c ≠ '+' := hcd ▸ hprops.2.2.2.2.1
  have hx : rest.head?.getD ' ' ≠ 'x' := by
    rcases rest with _ | ⟨c2, r2⟩
    · simp
    · obtain ⟨e, he, hce⟩ := hmem c2 (by simp)
      simpa [hce] using (hexDigit_props e he).2.2.2.2.2.1
  have hX : rest.head?.getD ' ' ≠ 'X' := by
    rcases rest with _ | ⟨c2, r2⟩
    · simp
    · obtain ⟨e, he, hce⟩ := hmem c2 (by simp)
      simpa [hce] using (hexDigit_props e he).2.2.2.2.2.2.1
  have hrun := hexRun_all_hex (c :: rest) 0 hallhex
  have hlt : List.foldl (fun x c => x * 16 + hexVal c) 0 (c :: rest) <
      16 ^ (c :: rest).length :=
    by simpa using foldl_hex_lt (c :: rest) 0 hmem
  have hval_le : List.foldl (fun x c => x * 16 + hexVal c) 0 (c :: rest) ≤ ULONG_MAX := by
    have h16 : (16 : Nat) ^ (c :: rest).length ≤ 16 ^ 8 :=
      Nat.pow_le_pow_right (by omega) hlen
    simp only [ULONG_MAX]
    omega
  simp [strtoul16, hdrop, hneg, hplus, hx, hX, hrun, Nat.min_eq_left hval_le]
  simpa using hval_le

theorem parse_twai_id_hexPad (w id : Nat) (hw : w = 3 ∨ w = 8)
    (hid : id < 16 ^ w)
    (hstd : w = 3 → id ≤ TWAI_STD_ID_MASK)
    (hext : w = 8 → id ≤ TWAI_EXT_ID_MASK) :
    parse_twai_id (hexPad w id) w = .ok (id, decide (3 < w)) := by
  have hw0 : 0 < w := by omega
  obtain ⟨hlen, hval, hmem⟩ := hexPad_spec w id hw0 hid
  have hne : hexPad w id ≠ [] := by
    intro hemp
    rw [hemp] at hlen
    simp at hlen
    omega
  have hst := strtoul16_upHex (hexPad w id) hne (by omega) hmem
  rw [hval, hlen] at hst
  simp only [parse_twai_id, parse_hex_id, TWAI_EXT_ID_CHAR_LEN, TWAI_STD_ID_CHAR_LEN]
  rw [if_neg (by omega), hst]
  rw [if_neg (by simp)]
  rcases hw with hw | hw
  · subst hw
    rw [if_neg (by simp)]
    rw [if_neg (by have := hstd rfl; simp [TWAI_STD_ID_MASK] at *; omega)]
  · subst hw
    rw [if_neg (by have := hext rfl; simp [TWAI_EXT_ID_MASK] at *; omega)]
    rw [if_neg (by simp)]

theorem range_map_getD : ∀ (l : List Nat),
    (List.range l.length).map (fun i => l.getD i 0) = l := by
  intro l
  induction l with
  | nil => rfl
  | cons a t ih =>
    have hc : ((fun i => (a :: t).getD i 0) ∘ Nat.succ) = fun i => t.getD i 0 := by
      funext i
      simp
    rw [List.length_cons, List.range_succ_eq_map, List.map_cons, List.map_map,
      List.getD_cons_zero, hc, ih]

theorem hexPad_two (b : Nat) (hb : b < 256) :
    hexPad 2 b = [hexDigit (b / 16), hexDigit (b % 16)] := by
  by_cases h : b < 16
  · have ht : toHexMin b = [hexDigit b] := toHexFuel_small (b + 1) b [] (by omega) h
    have h0 : hexDigit 0 = '0' := by decide
    rw [hexPad, ht, Nat.div_eq_of_lt h, Nat.mod_eq_of_lt h, h0]
    rfl
  · have hdiv : b / 16 < 16 := by omega
    have ht : toHexMin b = [hexDigit (b / 16), hexDigit (b % 16)] := by
      rw [toHexMin]
      rw [show toHexFuel (b + 1) b [] = toHexFuel b (b / 16) [hexDigit (b % 16)] from by
        simp [toHexFuel, h]]
      exact toHexFuel_small b (b / 16) _ (by omega) hdiv
    rw [hexPad, ht]
    simp

theorem parsePayloadAux_enc :
    ∀ (bs : List Nat) (cnt max : Nat), (∀ b ∈ bs, b < 256) → cnt + bs.length ≤ max →
      parsePayloadAux max ((bs.map (fun b => hexPad 2 b)).flatten) cnt = .ok bs := by
  intro bs
  induction bs with
  | nil => intro cnt max _ _; simp [parsePayloadAux]
  | cons b rest ih =>
    intro cnt max hb hlen
    have hb0 : b < 256 := hb b (by simp)
    have hd1 := hexDigit_props (b / 16) (by omega)
    have hd2 := hexDigit_props (b % 16) (by omega)
    have hclt : cnt < max := by simp at hlen; omega
    have ihr := ih (cnt + 1) max (fun x hx => hb x (by simp [hx]))
      (by simp at hlen ⊢; omega)
    have hbb : b / 16 * 16 + b % 16 = b := by omega
    simp only [List.map_cons, List.flatten_cons, hexPad_two b hb0, List.cons_append,
      List.nil_append]
    simp [parsePayloadAux, hclt, hd1.1, hd2.1, hd1.2.2.2.2.2.2.2.1, ihr,
      hd1.2.1, hd2.2.1, hbb, Except.map]

theorem scanPairs_enc :
    ∀ (bs : List Nat), (∀ b ∈ bs, b < 256) →
      scanPairs ((bs.map (fun b => hexPad 2 b)).flatten) bs.length = [] := by
  intro bs
  induction bs with
  | nil => intro _; rfl
  | cons b rest ih =>
    intro hb
    have hb0 : b < 256 := hb b (by simp)
    have hd1 := hexDigit_props (b / 16) (by omega)
    have hd2 := hexDigit_props (b % 16) (by omega)
    simp only [List.map_cons, List.flatten_cons, hexPad_two b hb0, List.length_cons,
      List.cons_append, List.nil_append]
    simp [scanPairs, hd1.2.2.2.2.2.2.2.1, hd1.1, hd2.1,
      ih (fun x hx => hb x (by simp [hx]))]

theorem parse_classic_frame_enc (bs : List Nat) (hb : ∀ b ∈ bs, b < 256)
    (hlen : bs.length ≤ TWAI_MAX_DATA_LEN) :
    parse_classic_frame ((bs.map (fun b => hexPad 2 b)).flatten) =
      .ok { rtr := false, dlc := bs.length, bytes := bs } := by
  rcases bs with _ | ⟨b, rest⟩
  · simp [parse_classic_frame, parse_payload, parsePayloadAux, TWAI_MAX_DATA_LEN]
  · have hb0 : b < 256 := hb b (by simp)
    have hd1 := hexDigit_props (b / 16) (by omega)
    have hro : ¬ (hexDigit (b / 16) = 'R' ∨ hexDigit (b / 16) = 'r') := by
      simp [hd1.2.2.2.2.2.2.2.2.1, hd1.2.2.2.2.2.2.2.2.2.1]
    have hpp : parse_payload
        (((b :: rest).map (fun x => hexPad 2 x)).flatten) TWAI_MAX_DATA_LEN =
        .ok (b :: rest) := by
      rw [parse_payload, if_neg (by simp [TWAI_MAX_DATA_LEN])]
      exact parsePayloadAux_enc (b :: rest) 0 TWAI_MAX_DATA_LEN hb (by simpa using hlen)
    have hsc := scanPairs_enc (b :: rest) hb
    simp only [List.map_cons, List.flatten_cons, hexPad_two b hb0, List.cons_append,
      List.nil_append, List.length_cons] at hpp hsc ⊢
    simp [parse_classic_frame, hro, hpp, hsc]

theorem parse_classic_frame_rtr (dlc : Nat) :
    ∃ d, parse_classic_frame ('R' :: toDecMin dlc) =
      .ok { rtr := true, dlc := d, bytes := [] } :=
  ⟨_, rfl⟩

/-- C1: round trip at the classic codec.  For every frame record
satisfying the frame-record invariants — payload within the classic
8-byte bound with `dlc` equal to the payload length for data frames, no
payload for remote frames, identifier within its width's range, byte
values below 256 — encoding the record with the dump formatter
(`format_twaidump_frame` field texts: identifier digits, `R`/DLC marker
or hex byte pairs) and decoding those fields with the dedicated decoder
(`parse_twai_id` + `parse_classic_frame`) recovers the same identifier,
the same standard/extended width, the same remote/data kind, and the same
payload bytes. -/
theorem codec_round_trip (r : FrameRecord)
    (hfd : r.fdf = false)
    (hidstd : r.ide = false → r.id ≤ TWAI_STD_ID_MASK)
    (hidext : r.ide = true → r.id ≤ TWAI_EXT_ID_MASK)
    (hrtr : r.rtr = true → r.bytes = [])
    (hdata : r.rtr = false → r.bytes.length ≤ TWAI_MAX_DATA_LEN ∧ r.dlc = r.bytes.length)
    (hb : ∀ b ∈ r.bytes, b < 256) :
    decodeClassicFields (encodeIdField r) (encodeBodyField r) =
      .ok { id := r.id, ide := r.ide, rtr := r.rtr, bytes := r.bytes } := by
  have hidp : parse_twai_id (encodeIdField r) (encodeIdField r).length =
      .ok (r.id, r.ide) := by
    cases hide : r.ide with
    | false =>
      have hidlt : r.id < 16 ^ 3 := by
        have := hidstd hide
        simp [TWAI_STD_ID_MASK] at this
        omega
      have hlen3 : (hexPad 3 r.id).length = 3 := (hexPad_spec 3 r.id (by omega) hidlt).1
      have hpt := parse_twai_id_hexPad 3 r.id (Or.inl rfl) hidlt
        (fun _ => hidstd hide) (by omega)
      simp [encodeIdField, TWAI_STD_ID_CHAR_LEN, hide, hlen3, hpt]
    | true =>
      have hidlt : r.id < 16 ^ 8 := by
        have := hidext hide
        simp [TWAI_EXT_ID_MASK] at this
        omega
      have hlen8 : (hexPad 8 r.id).length = 8 := (hexPad_spec 8 r.id (by omega) hidlt).1
      have hpt := parse_twai_id_hexPad 8 r.id (Or.inr rfl) hidlt (by omega)
        (fun _ => hidext hide)
      simp [encodeIdField, TWAI_EXT_ID_CHAR_LEN, hide, hlen8, hpt]
  cases hr : r.rtr with
  | false =>
    obtain ⟨hlen8, hdlc⟩ := hdata hr
    have hact : encActualLen r = r.bytes.length := by
      simp [encActualLen, hfd, hdlc]
    have henc : encodeBodyField r = (r.bytes.map (fun b => hexPad 2 b)).flatten := by
      simp only [encodeBodyField, hr, Bool.false_eq_true, if_false, hact]
      rw [range_map_getD]
    have hcf := parse_classic_frame_enc r.bytes hb hlen8
    rw [decodeClassicFields, hidp, henc, hcf]
    rfl
  | true =>
    obtain ⟨d, hcf⟩ := parse_classic_frame_rtr r.dlc
    have henc : encodeBodyField r = 'R' :: toDecMin r.dlc := by
      simp [encodeBodyField, hr]
    rw [decodeClassicFields, hidp, henc, hcf, hrtr hr]
    rfl

/-- Witness for C1 at a concrete standard-width data frame. -/
theorem codec_round_trip_witness :
    decodeClassicFields
      (encodeIdField { id := 0x123, ide := false, rtr := false, fdf := false,
                       brs := false, esi := false, dlc := 2, bytes := [0xAB, 0x01] })
      (encodeBodyField { id := 0x123, ide := false, rtr := false, fdf := false,
                         brs := false, esi := false, dlc := 2, bytes := [0xAB, 0x01] }) =
      .ok { id := 0x123, ide := false, rtr := false, bytes := [0xAB, 0x01] } :=
  codec_round_trip
    { id := 0x123, ide := false, rtr := false, fdf := false, brs := false,
      esi := false, dlc := 2, bytes := [0xAB, 0x01] }
    rfl (fun _ => by decide) (by decide) (by decide) (fun _ => by decide) (by decide)

/-- C5 counterexample: `parse_filters` on `"123:7FF,x"` (second token
malformed) returns a format error, yet the output parameters already hold
the mask filter stored for the first token — the returned mask count is 1,
not 0, so partial state IS visible through the output parameters,
contrary to the claim (shown at capacities 3/3; the first store is
capacity-independent for any capacity of at least one). -/
theorem filter_error_partial_commit_counterexample :
    parse_filters 3 3 "123:7FF,x".toList =
      (.error .error, [{ id := 0x123, mask := 0x7FF, is_ext := false }], []) ∧
    (parse_filters 3 3 "123:7FF,x".toList).2.1.length = 1 := by decide

/-- C5 (amended): when `parse_filters` fails, the output parameters may
already describe filters stored for tokens preceding the failure, but the
dump command handler treats every non-OK return as apply-no-filters: it
returns before any filter reaches the driver, so no filter is applied. -/
theorem filter_error_never_applied (mc rc : Nat) (s : List Char) (e : PErr)
    (masks : List MaskFilterConfig) (ranges : List RangeFilterConfig)
    (h : parse_filters mc rc s = (.error e, masks, ranges)) :
    twai_dump_apply_filters mc rc s = none := by
  simp [twai_dump_apply_filters, h]

/-- Witness for C5's amended theorem at the counterexample input. -/
theorem filter_error_never_applied_witness :
    twai_dump_apply_filters 3 3 "123:7FF,x".toList = none :=
  filter_error_never_applied 3 3 "123:7FF,x".toList .error
    [{ id := 0x123, mask := 0x7FF, is_ext := false }] [] (by decide)

/-- Witness for C6 at the minimal capacities (one mask slot, one range
slot). -/
theorem filter_grammar_witness :
    parse_filters 1 1 "123:7FF,010-020".toList =
      (.ok (), [{ id := 0x123, mask := 0x7FF, is_ext := false }],
        [{ range_low := 0x10, range_high := 0x20, is_ext := false }]) ∧
    parse_filters 1 1 "".toList = (.ok (), [], []) ∧
    parse_filters 1 1 ",123:7FF,,".toList =
      (.ok (), [{ id := 0x123, mask := 0x7FF, is_ext := false }], []) ∧
    parse_filters 1 1 "020-010".toList = (.error .error, [], []) ∧
    parse_filters 1 1 "xyz".toList = (.error .error, [], []) :=
  filter_grammar_spec 1 1 (by decide) (by decide)

end TwaiUtils
